import Mathlib

/-!
Verification of the Linux zero-copy transfer core (`src/net/sendfile_linux.go`)
and the bidirectional proxy of its benchmark (`src/net/sendfile_linux_test.go`).

The Go code is shallowly embedded as follows.

* Errors are the inductive `Err`; Go's `&OpError{op, net, raddr, cause}`
  wrapping is `Err.opError op cause` (the network/address diagnostics carry no
  verification content and are dropped).
* The kernel is an oracle (`KernelOracle`): the result of the i-th
  source-to-pipe splice call and the i-th pipe-to-destination splice call are
  given by the streams `rEv` and `wEv`.  An `SpliceEv.ok cap` outcome means the
  kernel makes progress and moves `min (cap+1) (min request available)` bytes
  (at least one byte whenever both the request and the available data are
  non-empty, as the real splice does on success); `SpliceEv.again w` is an
  `EAGAIN` result whose subsequent `wait()` call returns `w`; `SpliceEv.fail e`
  is any other splice error.  `dstLockErr`, `srcLockErr` and `pipeErr` are the
  results of `c.writeLock()`, the TCP source's `readLock()` and `os.Pipe()`.
* Byte streams are `List Nat`; the loop state tracks the actual bytes still in
  the source, sitting in the intermediate pipe, and delivered to the
  destination, alongside the Go variables `remain`, `pipeLen` and `written`.
* The `for` loop runs on explicit fuel; a run that exhausts its fuel while the
  loop guard still holds is flagged `timedOut` and theorems about complete
  runs supply sufficient fuel.
-/

namespace Sendfile

/-- `maxSendfileSize`: the largest chunk size asked of the kernel per splice
call, 64 KiB (`const maxSendfileSize int = 1024 * 64`). -/
def maxSendfileSize : Int := 1024 * 64

/-- Errors observable from the transfer core.  `eagain` is `syscall.EAGAIN`;
`enosys` and `einval` are the kernel-support errors named in the source
comments; `code n` stands for any other concrete system error; `opError op c`
is the `*net.OpError` wrapper with operation name `op` around cause `c`. -/
inductive Err where
  | eagain : Err
  | enosys : Err
  | einval : Err
  | code (n : Nat) : Err
  | opError (op : String) (cause : Err) : Err
deriving DecidableEq, Repr

/-- Outcome of one kernel splice call, as dictated by the oracle.
`ok cap`: success, the kernel moves `min (cap+1) (min request available)`
bytes (zero only when the source side has nothing left, which the Go code
reads as end-of-stream).  `again w`: the call would block (`EAGAIN`) and the
endpoint's `wait()` — consulted by `handleSpliceErr` — returns `w`
(`none` = wait succeeded).  `fail e`: the call fails with error `e`. -/
inductive SpliceEv where
  | ok (cap : Nat) : SpliceEv
  | again (waitRes : Option Err) : SpliceEv
  | fail (e : Err) : SpliceEv
deriving DecidableEq, Repr

/-- The kernel/environment oracle for one `sendFile` run. -/
structure KernelOracle where
  dstLockErr : Option Err
  srcLockErr : Option Err
  pipeErr : Option Err
  rEv : Nat → SpliceEv
  wEv : Nat → SpliceEv

/-- The reader argument of `sendFile`: either a bare reader or an
`*io.LimitedReader` with budget `n` wrapping a bare reader. -/
inductive RawReader where
  | file (fd : Nat) : RawReader
  | tcp (fd : Nat) : RawReader
  | other (tag : Nat) : RawReader
deriving DecidableEq, Repr

inductive Reader where
  | plain (rr : RawReader) : Reader
  | limited (n : Int) (rr : RawReader) : Reader
deriving DecidableEq, Repr

/-- Initial byte budget: `1 << 62` for a bare reader (`copy until EOF`),
`lr.N` for a limited one. -/
def Reader.budget : Reader → Int
  | .plain _ => 2 ^ 62
  | .limited n _ => n

/-- The underlying reader (`lr.R` after unwrapping, or the reader itself). -/
def Reader.raw : Reader → RawReader
  | .plain rr => rr
  | .limited _ rr => rr

def Reader.isLimited : Reader → Bool
  | .plain _ => false
  | .limited _ _ => true

/-- Final value of the caller's `lr.N` field: `sendFile` assigns `lr.N = v`
only when a `*io.LimitedReader` was supplied. -/
def writeBack (r : Reader) (v : Int) : Option Int :=
  if r.isLimited then some v else none

/-- The `spliceable` endpoint view, reduced to what the claims observe: a
descriptor and the outcome of its `lock()` call (a plain file's lock is
`doNothing`, hence `none`). -/
structure Spliceable where
  fd : Nat
  lockErr : Option Err
deriving DecidableEq, Repr

/-- `spliceableReader`: resolve a reader to a source endpoint.  `*os.File`
gets no-op lock/unlock/wait; `*TCPConn` gets the connection's read lock and
read-readiness wait; anything else is unsupported. -/
def spliceableReader (k : KernelOracle) : RawReader → Option Spliceable
  | .file fd => some ⟨fd, none⟩
  | .tcp fd => some ⟨fd, k.srcLockErr⟩
  | .other _ => none

/-- `handleSpliceErr`: if the splice error is `EAGAIN`, replace it with the
endpoint's `wait()` result (`waitRes`); any remaining non-nil error is wrapped
in an `OpError` with operation name `"s"`. -/
def handleSpliceErr (waitRes : Option Err) (e : Option Err) : Option Err :=
  match (if e = some Err.eagain then waitRes else e) with
  | none => none
  | some e2 => some (Err.opError "s" e2)

/-- State of the transfer loop.  `remain`, `pipeLen`, `written`, `err` are the
Go locals of the same names; `src`, `pipe`, `dst` are the bytes still in the
source, buffered in the intermediate pipe, and delivered to the destination;
`rIdx`/`wIdx` count the source-side and destination-side splice calls made so
far (indices into the oracle streams); `timedOut` marks fuel exhaustion. -/
structure LoopState where
  remain : Int
  pipeLen : Int
  written : Int
  src : List Nat
  pipe : List Nat
  dst : List Nat
  err : Option Err
  rIdx : Nat
  wIdx : Nat
  timedOut : Bool
deriving DecidableEq, Repr

/-- `toRead := maxSendfileSize; if int64(toRead) >= remain { toRead = int(remain) }`. -/
def toRead (remain : Int) : Int :=
  if maxSendfileSize ≥ remain then remain else maxSendfileSize

/-- The source-to-pipe sub-step (lines 74–86 of the Go loop), already inside
the chunk guard.  Returns the new state and whether the `for` loop breaks. -/
def readSub (k : KernelOracle) (s : LoopState) : LoopState × Bool :=
  let t := toRead s.remain
  match k.rEv s.rIdx with
  | SpliceEv.ok cap =>
      let n : Nat := min (cap + 1) (min t.toNat s.src.length)
      let s1 := { s with rIdx := s.rIdx + 1 }
      let s2 :=
        if 0 < n then
          { s1 with remain := s1.remain - (n : Int), pipeLen := s1.pipeLen + (n : Int),
                    pipe := s1.pipe ++ s1.src.take n, src := s1.src.drop n }
        else s1
      if n = 0 then (s2, true)
      else
        match handleSpliceErr none none with
        | none => (s2, false)
        | some e => ({ s2 with err := some e }, true)
  | SpliceEv.again w =>
      let s1 := { s with rIdx := s.rIdx + 1 }
      match handleSpliceErr w (some Err.eagain) with
      | none => (s1, false)
      | some e => ({ s1 with err := some e }, true)
  | SpliceEv.fail e0 =>
      let s1 := { s with rIdx := s.rIdx + 1 }
      match handleSpliceErr none (some e0) with
      | none => (s1, false)
      | some e => ({ s1 with err := some e }, true)

/-- The pipe-to-destination sub-step (lines 88–101), inside `pipeLen > 0`. -/
def writeSub (k : KernelOracle) (s : LoopState) : LoopState × Bool :=
  match k.wEv s.wIdx with
  | SpliceEv.ok cap =>
      let n : Nat := min (cap + 1) s.pipeLen.toNat
      let s1 := { s with wIdx := s.wIdx + 1 }
      let s2 :=
        if 0 < n then
          { s1 with written := s1.written + (n : Int), pipeLen := s1.pipeLen - (n : Int),
                    dst := s1.dst ++ s1.pipe.take n, pipe := s1.pipe.drop n }
        else s1
      if n = 0 then (s2, true)
      else
        match handleSpliceErr none none with
        | none => (s2, false)
        | some e => ({ s2 with err := some e }, true)
  | SpliceEv.again w =>
      let s1 := { s with wIdx := s.wIdx + 1 }
      match handleSpliceErr w (some Err.eagain) with
      | none => (s1, false)
      | some e => ({ s1 with err := some e }, true)
  | SpliceEv.fail e0 =>
      let s1 := { s with wIdx := s.wIdx + 1 }
      match handleSpliceErr none (some e0) with
      | none => (s1, false)
      | some e => ({ s1 with err := some e }, true)

/-- The drain half of one loop iteration, applied to the outcome of the
(possibly skipped) fill half: if the fill broke the loop, stop; otherwise
drain the pipe when `pipeLen > 0`. -/
def afterRead (k : KernelOracle) (rs : LoopState × Bool) : LoopState × Bool :=
  if rs.2 then rs
  else if rs.1.pipeLen > 0 then writeSub k rs.1
  else (rs.1, false)

/-- One iteration of the `for remain > 0 || pipeLen > 0` body: the fill
sub-step guarded by `pipeLen+toRead > pipeLen && pipeLen+toRead <= maxSendfileSize`,
then the drain sub-step. -/
def iter (k : KernelOracle) (s : LoopState) : LoopState × Bool :=
  afterRead k
    (if s.pipeLen + toRead s.remain > s.pipeLen ∧
        s.pipeLen + toRead s.remain ≤ maxSendfileSize
     then readSub k s else (s, false))

/-- The transfer loop, on fuel.  Exhausting the fuel while the loop guard
still holds marks the state `timedOut`. -/
def loop (k : KernelOracle) : Nat → LoopState → LoopState
  | 0, s => if s.remain > 0 ∨ s.pipeLen > 0 then { s with timedOut := true } else s
  | fuel + 1, s =>
      if s.remain > 0 ∨ s.pipeLen > 0 then
        (if (iter k s).2 then (iter k s).1 else loop k fuel (iter k s).1)
      else s

/-- Observable outcome of `sendFile`, with the side effects the claims
mention: the bytes delivered to the destination, the final `lr.N` field,
whether each lock was acquired and whether the pipe was created. -/
structure SendFileResult where
  written : Int
  err : Option Err
  handled : Bool
  dst : List Nat
  lrN : Option Int
  dstLocked : Bool
  srcLocked : Bool
  pipeCreated : Bool
  timedOut : Bool
deriving DecidableEq, Repr

def initState (remain : Int) (src : List Nat) : LoopState :=
  { remain := remain, pipeLen := 0, written := 0, src := src, pipe := [],
    dst := [], err := none, rIdx := 0, wIdx := 0, timedOut := false }

/-- The final `return written, err, written > 0` (after `lr.N = remain`),
packaged from the loop's final state. -/
def finishLoop (r : Reader) (fin : LoopState) : SendFileResult :=
  { written := fin.written, err := fin.err, handled := decide (0 < fin.written),
    dst := fin.dst, lrN := writeBack r fin.remain, dstLocked := true,
    srcLocked := true, pipeCreated := true, timedOut := fin.timedOut }

/-- `sendFile(c, r)`: unwrap a `LimitedReader` (no-op success on a
non-positive budget), resolve the source endpoint (decline with
`handled=false` if unsupported), take the destination write lock then the
source read lock (raw error, `handled=true` on failure), create the pipe
(wrapped error, `handled=false` on failure), run the transfer loop, write the
final budget back into `lr.N`, and return `(written, err, written > 0)`. -/
def sendFile (k : KernelOracle) (srcData : List Nat) (fuel : Nat) (r : Reader) :
    SendFileResult :=
  if r.isLimited ∧ r.budget ≤ 0 then
    { written := 0, err := none, handled := true, dst := [], lrN := writeBack r r.budget,
      dstLocked := false, srcLocked := false, pipeCreated := false, timedOut := false }
  else
    match spliceableReader k r.raw with
    | none =>
        { written := 0, err := none, handled := false, dst := [],
          lrN := writeBack r r.budget, dstLocked := false, srcLocked := false,
          pipeCreated := false, timedOut := false }
    | some src =>
        match k.dstLockErr with
        | some e =>
            { written := 0, err := some e, handled := true, dst := [],
              lrN := writeBack r r.budget, dstLocked := false, srcLocked := false,
              pipeCreated := false, timedOut := false }
        | none =>
            match src.lockErr with
            | some e =>
                { written := 0, err := some e, handled := true, dst := [],
                  lrN := writeBack r r.budget, dstLocked := true, srcLocked := false,
                  pipeCreated := false, timedOut := false }
            | none =>
                match k.pipeErr with
                | some e =>
                    { written := 0, err := some (Err.opError "pipe" e), handled := false,
                      dst := [], lrN := writeBack r r.budget, dstLocked := true,
                      srcLocked := true, pipeCreated := false, timedOut := false }
                | none =>
                    finishLoop r (loop k fuel (initState r.budget srcData))

/-- An oracle on which every operation succeeds and every splice call moves as
much data as requested. -/
def okOracle : KernelOracle :=
  { dstLockErr := none, srcLockErr := none, pipeErr := none,
    rEv := fun _ => SpliceEv.ok 99999, wEv := fun _ => SpliceEv.ok 99999 }

/-- An oracle whose destination accepts only 3 bytes on the first drain call
(a partial write) and everything afterwards. -/
def kPartial : KernelOracle :=
  { dstLockErr := none, srcLockErr := none, pipeErr := none,
    rEv := fun _ => SpliceEv.ok 99999,
    wEv := fun i => if i = 0 then SpliceEv.ok 2 else SpliceEv.ok 99999 }

/-- An oracle on which acquiring the destination's write lock fails with a
plain system error. -/
def kLockFail : KernelOracle :=
  { dstLockErr := some (Err.code 5), srcLockErr := none, pipeErr := none,
    rEv := fun _ => SpliceEv.ok 0, wEv := fun _ => SpliceEv.ok 0 }

/-- An oracle on which every source-side splice reports `EAGAIN` and the
subsequent readiness wait itself fails with `Err.code 7`. -/
def kWaitFail : KernelOracle :=
  { dstLockErr := none, srcLockErr := none, pipeErr := none,
    rEv := fun _ => SpliceEv.again (some (Err.code 7)),
    wEv := fun _ => SpliceEv.ok 99999 }

/-- Every splice outcome in the stream is a success (`SpliceEv.ok`): the run
sees no would-block results and no splice errors. -/
def allOk (ev : Nat → SpliceEv) : Prop := ∀ i, ∃ c, ev i = SpliceEv.ok c

/-- The pipe-occupancy invariant of claim C2: `pipeLen` is non-negative and
never exceeds the chunk ceiling. -/
def pipeBounded (s : LoopState) : Prop := 0 ≤ s.pipeLen ∧ s.pipeLen ≤ maxSendfileSize

/-- The chunk guard of line 73: `pipeLen+toRead > pipeLen && pipeLen+toRead <= maxSendfileSize`. -/
def chunkGuard (s : LoopState) : Prop :=
  s.pipeLen + toRead s.remain > s.pipeLen ∧ s.pipeLen + toRead s.remain ≤ maxSendfileSize

/-- Any error recorded by the loop is an `OpError` wrapper. -/
def errWrapped (s : LoopState) : Prop :=
  ∀ e, s.err = some e → ∃ op c, e = Err.opError op c

theorem handleSpliceErr_some (w e : Option Err) (x : Err)
    (h : handleSpliceErr w e = some x) : ∃ c, x = Err.opError "s" c := by
  unfold handleSpliceErr at h
  rcases hif : (if e = some Err.eagain then w else e) with _ | e2
  · rw [hif] at h
    simp at h
  · rw [hif] at h
    simp only [Option.some.injEq] at h
    exact ⟨e2, h.symm⟩

theorem loop_preserves (P : LoopState → Prop) (k : KernelOracle)
    (hstep : ∀ s, P s → P (iter k s).1)
    (htime : ∀ s, P s → P { s with timedOut := true }) :
    ∀ fuel s, P s → P (loop k fuel s) := by
  intro fuel
  induction fuel with
  | zero =>
      intro s hs
      unfold loop
      split
      · exact htime s hs
      · exact hs
  | succ fuel ih =>
      intro s hs
      unfold loop
      split
      · split
        · exact hstep s hs
        · exact ih _ (hstep s hs)
      · exact hs

theorem readSub_pipeLen (k : KernelOracle) (s : LoopState) :
    (readSub k s).1.pipeLen = s.pipeLen ∨
      ∃ n : Nat, 0 < n ∧ (n : Int) ≤ max (toRead s.remain) 0 ∧
        (readSub k s).1.pipeLen = s.pipeLen + (n : Int) := by
  unfold readSub
  rcases hev : k.rEv s.rIdx with cap | w | e0
  · by_cases hn : 0 < min (cap + 1) (min (toRead s.remain).toNat s.src.length)
    · right
      refine ⟨min (cap + 1) (min (toRead s.remain).toNat s.src.length), hn, ?_, ?_⟩
      · have h1 : min (cap + 1) (min (toRead s.remain).toNat s.src.length) ≤
            (toRead s.remain).toNat := le_trans (Nat.min_le_right _ _) (Nat.min_le_left _ _)
        have h2 := Int.toNat_eq_max (toRead s.remain)
        omega
      · simp only [if_pos hn, if_neg (Nat.pos_iff_ne_zero.mp hn), handleSpliceErr]
        simp
    · left
      simp only [if_neg hn, if_pos (Nat.eq_zero_of_not_pos hn), handleSpliceErr]
  · left
    rcases w with _ | e
    · simp [handleSpliceErr]
    · simp [handleSpliceErr]
  · left
    unfold handleSpliceErr
    split <;> split <;> simp_all

theorem writeSub_pipeLen (k : KernelOracle) (s : LoopState) :
    (writeSub k s).1.pipeLen = s.pipeLen ∨
      ∃ n : Nat, 0 < n ∧ (n : Int) ≤ max s.pipeLen 0 ∧
        (writeSub k s).1.pipeLen = s.pipeLen - (n : Int) := by
  unfold writeSub
  rcases hev : k.wEv s.wIdx with cap | w | e0
  · by_cases hn : 0 < min (cap + 1) s.pipeLen.toNat
    · right
      refine ⟨min (cap + 1) s.pipeLen.toNat, hn, ?_, ?_⟩
      · have h1 : min (cap + 1) s.pipeLen.toNat ≤ s.pipeLen.toNat := Nat.min_le_right _ _
        have h2 := Int.toNat_eq_max s.pipeLen
        omega
      · simp only [if_pos hn, if_neg (Nat.pos_iff_ne_zero.mp hn), handleSpliceErr]
        simp
    · left
      simp only [if_neg hn, if_pos (Nat.eq_zero_of_not_pos hn), handleSpliceErr]
  · left
    rcases w with _ | e
    · simp [handleSpliceErr]
    · simp [handleSpliceErr]
  · left
    unfold handleSpliceErr
    split <;> split <;> simp_all

theorem readSub_pipeBounded (k : KernelOracle) (s : LoopState)
    (hg : chunkGuard s) (hs : pipeBounded s) : pipeBounded (readSub k s).1 := by
  obtain ⟨hg1, hg2⟩ := hg
  obtain ⟨h0, h1⟩ := hs
  rcases readSub_pipeLen k s with h | ⟨n, hn, hle, heq⟩
  · exact ⟨h ▸ h0, h ▸ h1⟩
  · constructor
    · rw [heq]; omega
    · rw [heq]
      have : max (toRead s.remain) 0 = toRead s.remain := by omega
      omega

theorem writeSub_pipeBounded (k : KernelOracle) (s : LoopState)
    (hs : pipeBounded s) : pipeBounded (writeSub k s).1 := by
  obtain ⟨h0, h1⟩ := hs
  rcases writeSub_pipeLen k s with h | ⟨n, hn, hle, heq⟩
  · exact ⟨h ▸ h0, h ▸ h1⟩
  · exact ⟨by rw [heq]; omega, by rw [heq]; omega⟩

theorem afterRead_pipeBounded (k : KernelOracle) (rs : LoopState × Bool)
    (hs : pipeBounded rs.1) : pipeBounded (afterRead k rs).1 := by
  unfold afterRead
  split
  · exact hs
  · split
    · exact writeSub_pipeBounded k _ hs
    · exact hs

theorem iter_pipeBounded (k : KernelOracle) (s : LoopState)
    (hs : pipeBounded s) : pipeBounded (iter k s).1 := by
  unfold iter
  apply afterRead_pipeBounded
  split
  · rename_i hg
    exact readSub_pipeBounded k s hg hs
  · exact hs

theorem readSub_written (k : KernelOracle) (s : LoopState) :
    (readSub k s).1.written = s.written := by
  unfold readSub handleSpliceErr
  rcases hev : k.rEv s.rIdx with cap | w | e0 <;> (repeat' split) <;>
    simp_all <;> (repeat' split) <;> simp_all

theorem readSub_wIdx (k : KernelOracle) (s : LoopState) :
    (readSub k s).1.wIdx = s.wIdx := by
  unfold readSub handleSpliceErr
  rcases hev : k.rEv s.rIdx with cap | w | e0 <;> (repeat' split) <;>
    simp_all <;> (repeat' split) <;> simp_all

theorem writeSub_rIdx (k : KernelOracle) (s : LoopState) :
    (writeSub k s).1.rIdx = s.rIdx := by
  unfold writeSub handleSpliceErr
  rcases hev : k.wEv s.wIdx with cap | w | e0 <;> (repeat' split) <;>
    simp_all <;> (repeat' split) <;> simp_all

theorem writeSub_written (k : KernelOracle) (s : LoopState) :
    (writeSub k s).1.written = s.written ∨
      ∃ n : Nat, (writeSub k s).1.written = s.written + (n : Int) := by
  unfold writeSub
  rcases hev : k.wEv s.wIdx with cap | w | e0
  · by_cases hn : 0 < min (cap + 1) s.pipeLen.toNat
    · right
      refine ⟨min (cap + 1) s.pipeLen.toNat, ?_⟩
      simp only [if_pos hn, if_neg (Nat.pos_iff_ne_zero.mp hn), handleSpliceErr]
      simp
    · left
      simp only [if_neg hn, if_pos (Nat.eq_zero_of_not_pos hn), handleSpliceErr]
  · left
    rcases w with _ | e
    · simp [handleSpliceErr]
    · simp [handleSpliceErr]
  · left
    unfold handleSpliceErr
    split <;> split <;> simp_all

theorem readSub_err (k : KernelOracle) (s : LoopState) (x : Err)
    (h : (readSub k s).1.err = some x) :
    s.err = some x ∨ ∃ c, x = Err.opError "s" c := by
  unfold readSub at h
  rcases hev : k.rEv s.rIdx with cap | w | e0 <;> rw [hev] at h
  · left
    simp only [handleSpliceErr] at h
    simp at h
    (repeat' split at h) <;> simp_all
  · rcases w with _ | e
    · left
      simp only [handleSpliceErr] at h
      simp at h
      exact h
    · right
      simp only [handleSpliceErr] at h
      simp at h
      exact ⟨e, h.symm⟩
  · by_cases he : e0 = Err.eagain
    · left
      subst he
      simp only [handleSpliceErr] at h
      simp at h
      exact h
    · right
      simp only [handleSpliceErr] at h
      rw [if_neg (by simpa using he)] at h
      simp at h
      exact ⟨e0, h.symm⟩

theorem writeSub_err (k : KernelOracle) (s : LoopState) (x : Err)
    (h : (writeSub k s).1.err = some x) :
    s.err = some x ∨ ∃ c, x = Err.opError "s" c := by
  unfold writeSub at h
  rcases hev : k.wEv s.wIdx with cap | w | e0 <;> rw [hev] at h
  · left
    simp only [handleSpliceErr] at h
    simp at h
    (repeat' split at h) <;> simp_all
  · rcases w with _ | e
    · left
      simp only [handleSpliceErr] at h
      simp at h
      exact h
    · right
      simp only [handleSpliceErr] at h
      simp at h
      exact ⟨e, h.symm⟩
  · by_cases he : e0 = Err.eagain
    · left
      subst he
      simp only [handleSpliceErr] at h
      simp at h
      exact h
    · right
      simp only [handleSpliceErr] at h
      rw [if_neg (by simpa using he)] at h
      simp at h
      exact ⟨e0, h.symm⟩

theorem iter_written_nonneg (k : KernelOracle) (s : LoopState)
    (hs : 0 ≤ s.written) : 0 ≤ (iter k s).1.written := by
  unfold iter
  set rs := (if s.pipeLen + toRead s.remain > s.pipeLen ∧
      s.pipeLen + toRead s.remain ≤ maxSendfileSize then readSub k s else (s, false)) with hrs
  have h1 : 0 ≤ rs.1.written := by
    rw [hrs]
    split
    · rw [readSub_written]
      exact hs
    · exact hs
  unfold afterRead
  split
  · exact h1
  · split
    · rcases writeSub_written k rs.1 with h | ⟨n, h⟩
      · rw [h]
        exact h1
      · rw [h]
        have : (0 : Int) ≤ (n : Int) := Int.natCast_nonneg n
        omega
    · exact h1

theorem loop_written_nonneg (k : KernelOracle) (fuel : Nat) (s : LoopState)
    (hs : 0 ≤ s.written) : 0 ≤ (loop k fuel s).written :=
  loop_preserves (fun u => 0 ≤ u.written) k
    (fun u hu => iter_written_nonneg k u hu) (fun _ hu => hu) fuel s hs

theorem iter_errWrapped (k : KernelOracle) (s : LoopState)
    (hs : errWrapped s) : errWrapped (iter k s).1 := by
  unfold iter
  set rs := (if s.pipeLen + toRead s.remain > s.pipeLen ∧
      s.pipeLen + toRead s.remain ≤ maxSendfileSize then readSub k s else (s, false)) with hrs
  have h1 : errWrapped rs.1 := by
    rw [hrs]
    split
    · intro x hx
      rcases readSub_err k s x hx with h | ⟨c, hc⟩
      · exact hs x h
      · exact ⟨"s", c, hc⟩
    · exact hs
  unfold afterRead
  split
  · exact h1
  · split
    · intro x hx
      rcases writeSub_err k rs.1 x hx with h | ⟨c, hc⟩
      · exact h1 x h
      · exact ⟨"s", c, hc⟩
    · exact h1

theorem loop_errWrapped (k : KernelOracle) (fuel : Nat) (s : LoopState)
    (hs : errWrapped s) : errWrapped (loop k fuel s) :=
  loop_preserves errWrapped k (fun u hu => iter_errWrapped k u hu)
    (fun u hu => fun e he => hu e he) fuel s hs

/-- Claim C2: throughout the transfer loop the number of bytes buffered in
the intermediate pipe satisfies `0 ≤ pipeLen ≤ maxSendfileSize`: the bound is
preserved by every whole iteration and by the fill sub-step alone (the point
of maximal occupancy), because the fill runs only under the guard
`pipeLen + toRead > pipeLen ∧ pipeLen + toRead ≤ maxSendfileSize`; when the
guard fails no source-side splice call is made at all. -/
theorem C2_pipeLen_bounded (k : KernelOracle) (s : LoopState) (hs : pipeBounded s) :
    (∀ fuel, pipeBounded (loop k fuel s)) ∧
    (chunkGuard s → pipeBounded (readSub k s).1) ∧
    pipeBounded (writeSub k s).1 ∧
    (¬ chunkGuard s → (iter k s).1.rIdx = s.rIdx) := by
  refine ⟨?_, fun hg => readSub_pipeBounded k s hg hs, writeSub_pipeBounded k s hs, ?_⟩
  · intro fuel
    exact loop_preserves pipeBounded k (fun u hu => iter_pipeBounded k u hu)
      (fun u hu => hu) fuel s hs
  · intro hg
    unfold iter
    rw [if_neg (by exact hg)]
    unfold afterRead
    simp only []
    split
    · simp at *
    · split
      · exact writeSub_rIdx k s
      · rfl

theorem C2_witness :
    pipeBounded (initState 5 [1, 2]) ∧ pipeBounded (loop okOracle 9 (initState 5 [1, 2])) := by
  have h0 : pipeBounded (initState 5 [1, 2]) := ⟨by decide, by decide⟩
  exact ⟨h0, (C2_pipeLen_bounded okOracle (initState 5 [1, 2]) h0).1 9⟩

/-- Claim C7: a would-block (`EAGAIN`) splice result is never surfaced: when
`wait()` succeeds `handleSpliceErr` erases the error (and the sub-step
records no error and does not break the loop, so the chunk is retried);
`EAGAIN` turns terminal exactly when the wait itself fails, in which case the
wait's own error is wrapped in an `OpError` and the sub-step breaks the loop.
Consequently every error the loop ever records is an `OpError` wrapper — in
particular never the bare `EAGAIN` of a splice call. -/
theorem C7_eagain_never_surfaced (k : KernelOracle) (s : LoopState) :
    handleSpliceErr none (some Err.eagain) = none ∧
    (∀ e, handleSpliceErr (some e) (some Err.eagain) = some (Err.opError "s" e)) ∧
    (k.rEv s.rIdx = SpliceEv.again none →
      readSub k s = ({ s with rIdx := s.rIdx + 1 }, false)) ∧
    (k.wEv s.wIdx = SpliceEv.again none →
      writeSub k s = ({ s with wIdx := s.wIdx + 1 }, false)) ∧
    (∀ e, k.rEv s.rIdx = SpliceEv.again (some e) →
      readSub k s = ({ s with rIdx := s.rIdx + 1, err := some (Err.opError "s" e) }, true)) ∧
    (∀ fuel, errWrapped s → errWrapped (loop k fuel s)) := by
  refine ⟨rfl, fun e => rfl, ?_, ?_, ?_, fun fuel hs => loop_errWrapped k fuel s hs⟩
  · intro h
    unfold readSub
    rw [h]
    rfl
  · intro h
    unfold writeSub
    rw [h]
    rfl
  · intro e h
    unfold readSub
    rw [h]
    rfl

theorem C7_witness :
    ∃ op c, (loop kWaitFail 9 (initState 2 [5, 6])).err = some (Err.opError op c) := by
  have hw : errWrapped (loop kWaitFail 9 (initState 2 [5, 6])) :=
    (C7_eagain_never_surfaced kWaitFail (initState 2 [5, 6])).2.2.2.2.2 9
      (fun e he => by simp [initState] at he)
  have hval : (loop kWaitFail 9 (initState 2 [5, 6])).err =
      some (Err.opError "s" (Err.code 7)) := by decide
  obtain ⟨op, c, hc⟩ := hw _ hval
  exact ⟨op, c, by rw [hval, hc]⟩

/-- Claim C10: on every return path of `sendFile`, `handled = false` implies
`bytesWritten = 0`: the counter starts at zero and only grows, every early
return reporting `handled = false` returns zero, and the loop-exit return
derives `handled` from `written > 0`. -/
theorem C10_not_handled_zero_written (k : KernelOracle) (d : List Nat) (fuel : Nat)
    (r : Reader) (h : (sendFile k d fuel r).handled = false) :
    (sendFile k d fuel r).written = 0 := by
  by_cases hc : (r.isLimited : Prop) ∧ r.budget ≤ 0
  · unfold sendFile at h
    rw [if_pos hc] at h
    simp at h
  · rcases hsr : spliceableReader k r.raw with _ | ep
    · unfold sendFile
      rw [if_neg hc, hsr]
    · rcases hdl : k.dstLockErr with _ | e
      · rcases hsl : ep.lockErr with _ | e
        · rcases hpe : k.pipeErr with _ | e
          · unfold sendFile at h ⊢
            rw [if_neg hc] at h ⊢
            simp only [hsr, hdl, hsl, hpe] at h ⊢
            unfold finishLoop at h ⊢
            simp only [decide_eq_false_iff_not, not_lt] at h
            have h0 : 0 ≤ (loop k fuel (initState r.budget d)).written :=
              loop_written_nonneg k fuel _ (by simp [initState])
            simp only []
            omega
          · unfold sendFile
            rw [if_neg hc]
            simp [hsr, hdl, hsl, hpe]
        · unfold sendFile at h
          rw [if_neg hc] at h
          simp [hsr, hdl, hsl] at h
      · unfold sendFile at h
        rw [if_neg hc] at h
        simp [hsr, hdl] at h

theorem C10_witness :
    (sendFile okOracle [] 0 (Reader.plain (RawReader.other 0))).handled = false ∧
    (sendFile okOracle [] 0 (Reader.plain (RawReader.other 0))).written = 0 :=
  ⟨by decide, C10_not_handled_zero_written okOracle [] 0 _ (by decide)⟩

/-- Claim C4: whenever `sendFile` gets past its early returns and actually
runs the transfer loop (source resolves, positive or unbounded budget, both
locks acquired, pipe created), the returned `handled` flag is exactly
`bytesWritten > 0` — derived from progress, not from the absence of an
error. -/
theorem C4_handled_iff_progress (k : KernelOracle) (d : List Nat) (fuel : Nat)
    (r : Reader) (ep : Spliceable) (hbud : ¬((r.isLimited : Prop) ∧ r.budget ≤ 0))
    (hres : spliceableReader k r.raw = some ep) (hlk : ep.lockErr = none)
    (h1 : k.dstLockErr = none) (h2 : k.pipeErr = none) :
    ((sendFile k d fuel r).handled = true ↔ 0 < (sendFile k d fuel r).written) := by
  unfold sendFile
  rw [if_neg hbud]
  simp only [hres, h1, hlk, h2]
  unfold finishLoop
  simp

theorem C4_witness :
    ((sendFile okOracle [4] 3 (Reader.plain (RawReader.file 0))).handled = true ↔
      0 < (sendFile okOracle [4] 3 (Reader.plain (RawReader.file 0))).written) :=
  C4_handled_iff_progress okOracle [4] 3 (Reader.plain (RawReader.file 0)) ⟨0, none⟩
    (by simp [Reader.isLimited]) rfl rfl rfl rfl

/-- Claim C5: a bounded request with a non-positive budget is a complete
no-op: `sendFile` returns `(0, nil, true)`, delivers nothing, takes no lock,
creates no pipe, and leaves the caller's `lr.N` untouched. -/
theorem C5_nonpositive_budget_noop (k : KernelOracle) (d : List Nat) (fuel : Nat)
    (n : Int) (rr : RawReader) (hn : n ≤ 0) :
    sendFile k d fuel (Reader.limited n rr) =
      { written := 0, err := none, handled := true, dst := [], lrN := some n,
        dstLocked := false, srcLocked := false, pipeCreated := false, timedOut := false } := by
  unfold sendFile
  rw [if_pos ⟨rfl, hn⟩]
  simp [writeBack, Reader.isLimited, Reader.budget]

theorem C5_witness :
    sendFile okOracle [1, 2] 3 (Reader.limited (-4) (RawReader.tcp 8)) =
      { written := 0, err := none, handled := true, dst := [], lrN := some (-4),
        dstLocked := false, srcLocked := false, pipeCreated := false, timedOut := false } :=
  C5_nonpositive_budget_noop okOracle [1, 2] 3 (-4) (RawReader.tcp 8) (by norm_num)

/-- Claim C6 counterexample: the claim asserts that an unsupported reader
type yields `handled = false` for every budget, including non-positive
bounded ones; but a `LimitedReader` with budget `0` wrapping an unsupported
reader hits the non-positive-budget no-op first (line 34) and `sendFile`
returns `handled = true`. -/
theorem C6_counterexample :
    (sendFile okOracle [] 0 (Reader.limited 0 (RawReader.other 7))).handled = true := by
  decide

/-- Claim C6 (amended): for a reader whose underlying type is neither a
plain file nor a socket connection, `sendFile` returns `(0, nil, false)`
with no side effects for an unbounded budget and for every positive bounded
budget; a bounded budget `≤ 0`, however, short-circuits at the earlier no-op
check and returns `(0, nil, true)` (still zero bytes, no error, no side
effects). -/
theorem C6_unsupported_amended (k : KernelOracle) (d : List Nat) (fuel : Nat) (tag : Nat) :
    (sendFile k d fuel (Reader.plain (RawReader.other tag)) =
      { written := 0, err := none, handled := false, dst := [], lrN := none,
        dstLocked := false, srcLocked := false, pipeCreated := false, timedOut := false }) ∧
    (∀ n : Int, 0 < n →
      sendFile k d fuel (Reader.limited n (RawReader.other tag)) =
        { written := 0, err := none, handled := false, dst := [], lrN := some n,
          dstLocked := false, srcLocked := false, pipeCreated := false, timedOut := false }) ∧
    (∀ n : Int, n ≤ 0 →
      sendFile k d fuel (Reader.limited n (RawReader.other tag)) =
        { written := 0, err := none, handled := true, dst := [], lrN := some n,
          dstLocked := false, srcLocked := false, pipeCreated := false, timedOut := false }) := by
  refine ⟨?_, ?_, ?_⟩
  · unfold sendFile
    rw [if_neg (by simp [Reader.isLimited])]
    simp [spliceableReader, Reader.raw, writeBack, Reader.isLimited]
  · intro n hn
    unfold sendFile
    rw [if_neg (by simp [Reader.isLimited, Reader.budget]; omega)]
    simp [spliceableReader, Reader.raw, writeBack, Reader.isLimited, Reader.budget]
  · intro n hn
    unfold sendFile
    rw [if_pos ⟨rfl, hn⟩]
    simp [writeBack, Reader.isLimited, Reader.budget]

theorem C6_witness :
    sendFile okOracle [9] 4 (Reader.limited 3 (RawReader.other 1)) =
      { written := 0, err := none, handled := false, dst := [], lrN := some 3,
        dstLocked := false, srcLocked := false, pipeCreated := false, timedOut := false } :=
  (C6_unsupported_amended okOracle [9] 4 1).2.1 3 (by norm_num)

/-- `true` exactly on `OpError`-wrapped errors. -/
def Err.isWrapped : Err → Bool
  | .opError _ _ => true
  | _ => false

/-- Claim C8 counterexample: the claim asserts the lock-acquisition failure
is surfaced as a *wrapped* error; but `sendFile` returns the lock's error
verbatim (`return 0, err, true`, lines 50-56) without an `OpError` wrapper:
on an oracle whose destination write lock fails with the plain system error
`Err.code 5`, the returned error is exactly `Err.code 5`, unwrapped. -/
theorem C8_counterexample :
    sendFile kLockFail [] 0 (Reader.plain (RawReader.file 1)) =
      { written := 0, err := some (Err.code 5), handled := true, dst := [], lrN := none,
        dstLocked := false, srcLocked := false, pipeCreated := false, timedOut := false } ∧
    (Err.code 5).isWrapped = false :=
  ⟨by decide, rfl⟩

/-- Claim C8 (amended): if acquiring the destination's write lock or the
source's read lock fails, `sendFile` returns immediately with zero bytes,
`handled = true`, and the lock's error surfaced verbatim (not wrapped). -/
theorem C8_lock_failure_amended (k : KernelOracle) (d : List Nat) (fuel : Nat)
    (r : Reader) (ep : Spliceable) (e : Err)
    (hbud : ¬((r.isLimited : Prop) ∧ r.budget ≤ 0))
    (hres : spliceableReader k r.raw = some ep) :
    (k.dstLockErr = some e →
      sendFile k d fuel r =
        { written := 0, err := some e, handled := true, dst := [],
          lrN := writeBack r r.budget, dstLocked := false, srcLocked := false,
          pipeCreated := false, timedOut := false }) ∧
    (k.dstLockErr = none → ep.lockErr = some e →
      sendFile k d fuel r =
        { written := 0, err := some e, handled := true, dst := [],
          lrN := writeBack r r.budget, dstLocked := true, srcLocked := false,
          pipeCreated := false, timedOut := false }) := by
  constructor
  · intro h
    unfold sendFile
    rw [if_neg hbud]
    simp only [hres, h]
  · intro h h2
    unfold sendFile
    rw [if_neg hbud]
    simp only [hres, h, h2]

theorem C8_witness :
    sendFile kLockFail [6] 2 (Reader.plain (RawReader.tcp 3)) =
      { written := 0, err := some (Err.code 5), handled := true, dst := [], lrN := none,
        dstLocked := false, srcLocked := false, pipeCreated := false, timedOut := false } := by
  have h := (C8_lock_failure_amended kLockFail [6] 2 (Reader.plain (RawReader.tcp 3))
    ⟨3, kLockFail.srcLockErr⟩ (Err.code 5) (by simp [Reader.isLimited]) rfl).1 rfl
  simpa [writeBack, Reader.isLimited] using h

theorem toRead_big (remain : Int) (h : maxSendfileSize < remain) :
    toRead remain = maxSendfileSize := by
  unfold toRead
  rw [if_neg (by omega)]

theorem iter_c1_eof (k : KernelOracle) (s : LoopState) (c : Nat)
    (hc : k.rEv s.rIdx = SpliceEv.ok c) (hrem : maxSendfileSize < s.remain)
    (hp : s.pipeLen = 0) (hsrc : s.src = []) :
    iter k s = ({ s with rIdx := s.rIdx + 1 }, true) := by
  have hg : s.pipeLen + toRead s.remain > s.pipeLen ∧
      s.pipeLen + toRead s.remain ≤ maxSendfileSize := by
    rw [toRead_big s.remain hrem, hp]
    unfold maxSendfileSize
    constructor <;> omega
  have hrs : readSub k s = ({ s with rIdx := s.rIdx + 1 }, true) := by
    unfold readSub
    rw [hc]
    simp [hsrc]
  unfold iter
  rw [if_pos hg, hrs]
  rfl

theorem iter_c1_readwrite (k : KernelOracle) (s : LoopState) (c c2 n m : Nat)
    (hc : k.rEv s.rIdx = SpliceEv.ok c) (hc2 : k.wEv s.wIdx = SpliceEv.ok c2)
    (hrem : maxSendfileSize < s.remain) (hp : s.pipeLen = 0) (hp2 : s.pipe = [])
    (hsrc : s.src ≠ [])
    (hn : n = min (c + 1) (min 65536 s.src.length)) (hm : m = min (c2 + 1) n) :
    iter k s =
      ({ s with remain := s.remain - (n : Int), pipeLen := (n : Int) - (m : Int),
                written := s.written + (m : Int),
                pipe := (s.src.take n).drop m,
                dst := s.dst ++ (s.src.take n).take m,
                src := s.src.drop n, rIdx := s.rIdx + 1, wIdx := s.wIdx + 1 }, false) := by
  have h0 : 0 < s.src.length := List.length_pos.mpr hsrc
  have htn : (toRead s.remain).toNat = 65536 := by
    rw [toRead_big s.remain hrem]
    rfl
  have hnpos : 0 < n := by rw [hn]; omega
  have hmpos : 0 < m := by rw [hm]; omega
  have hg : s.pipeLen + toRead s.remain > s.pipeLen ∧
      s.pipeLen + toRead s.remain ≤ maxSendfileSize := by
    rw [toRead_big s.remain hrem, hp]
    unfold maxSendfileSize
    constructor <;> omega
  have hrs : readSub k s =
      ({ s with remain := s.remain - (n : Int), pipeLen := (n : Int),
                pipe := s.src.take n, src := s.src.drop n, rIdx := s.rIdx + 1 }, false) := by
    unfold readSub
    simp only [hc, htn]
    rw [← hn]
    rw [if_pos hnpos, if_neg (by omega)]
    simp [hp, hp2, handleSpliceErr]
  have hws : writeSub k
      ({ s with remain := s.remain - (n : Int), pipeLen := (n : Int),
                pipe := s.src.take n, src := s.src.drop n, rIdx := s.rIdx + 1 } : LoopState) =
      ({ s with remain := s.remain - (n : Int), pipeLen := (n : Int) - (m : Int),
                written := s.written + (m : Int),
                pipe := (s.src.take n).drop m,
                dst := s.dst ++ (s.src.take n).take m,
                src := s.src.drop n, rIdx := s.rIdx + 1, wIdx := s.wIdx + 1 }, false) := by
    unfold writeSub
    simp only [hc2, Int.toNat_natCast]
    rw [← hm]
    rw [if_pos hmpos, if_neg (by omega)]
    simp [handleSpliceErr]
  unfold iter
  rw [if_pos hg, hrs]
  unfold afterRead
  rw [if_neg (by simp), if_pos (by show (0 : Int) < (n : Int); exact_mod_cast hnpos)]
  exact hws

theorem iter_c1_drain (k : KernelOracle) (s : LoopState) (c2 m : Nat)
    (hc2 : k.wEv s.wIdx = SpliceEv.ok c2) (hrem : maxSendfileSize < s.remain)
    (hp : 0 < s.pipeLen) (hm : m = min (c2 + 1) s.pipeLen.toNat) :
    iter k s =
      ({ s with written := s.written + (m : Int), pipeLen := s.pipeLen - (m : Int),
                dst := s.dst ++ s.pipe.take m, pipe := s.pipe.drop m,
                wIdx := s.wIdx + 1 }, false) := by
  have hg : ¬(s.pipeLen + toRead s.remain > s.pipeLen ∧
      s.pipeLen + toRead s.remain ≤ maxSendfileSize) := by
    rw [toRead_big s.remain hrem]
    unfold maxSendfileSize
    omega
  have hmpos : 0 < m := by rw [hm]; omega
  have hws : writeSub k s =
      ({ s with written := s.written + (m : Int), pipeLen := s.pipeLen - (m : Int),
                dst := s.dst ++ s.pipe.take m, pipe := s.pipe.drop m,
                wIdx := s.wIdx + 1 }, false) := by
    unfold writeSub
    simp only [hc2]
    rw [← hm]
    rw [if_pos hmpos, if_neg (by omega)]
    simp [handleSpliceErr]
  unfold iter
  rw [if_neg hg]
  unfold afterRead
  rw [if_neg (by simp), if_pos (by simpa using hp)]
  exact hws

/-- The invariant of the unbounded (full-budget) transfer: the bytes
delivered, buffered and still pending always concatenate to the original
stream, the Go counters mirror the list lengths, the budget decreases exactly
by the bytes taken off the source, and no error has occurred. -/
def c1Inv (orig : List Nat) (s : LoopState) : Prop :=
  s.dst ++ s.pipe ++ s.src = orig ∧
  s.written = (s.dst.length : Int) ∧
  s.pipeLen = (s.pipe.length : Int) ∧
  s.remain = 2 ^ 62 - (s.dst.length : Int) - (s.pipe.length : Int) ∧
  s.err = none ∧ s.timedOut = false

theorem c1_loop (k : KernelOracle) (orig : List Nat)
    (horig : (orig.length : Int) < 2 ^ 61)
    (hr : allOk k.rEv) (hw : allOk k.wEv) :
    ∀ fuel s, c1Inv orig s → 2 * s.src.length + s.pipe.length < fuel →
      (loop k fuel s).dst = orig ∧ (loop k fuel s).written = (orig.length : Int) ∧
      (loop k fuel s).err = none ∧ (loop k fuel s).timedOut = false := by
  intro fuel
  induction fuel with
  | zero =>
      intro s _ hfl
      omega
  | succ fuel ih =>
      intro s hinv hfl
      obtain ⟨hcat, hwr, hpl, hrem, herr, hto⟩ := hinv
      have hlen : s.dst.length + s.pipe.length + s.src.length = orig.length := by
        rw [← hcat]
        simp [List.length_append]
        omega
      have hpow1 : ((2 : Int) ^ 61) = 2305843009213693952 := by norm_num
      have hrem_big : maxSendfileSize < s.remain := by
        rw [hrem]
        have hpow : ((2 : Int) ^ 62) = 4611686018427387904 := by norm_num
        rw [hpow]
        rw [hpow1] at horig
        unfold maxSendfileSize
        omega
      have hcond : s.remain > 0 ∨ s.pipeLen > 0 :=
        Or.inl (by unfold maxSendfileSize at hrem_big; omega)
      simp only [loop]
      rw [if_pos hcond]
      rcases hpipe : s.pipe with _ | ⟨b, p⟩
      · have hp0 : s.pipeLen = 0 := by rw [hpl, hpipe]; rfl
        obtain ⟨c, hc⟩ := hr s.rIdx
        rcases hsrc : s.src with _ | ⟨a, l⟩
        · rw [iter_c1_eof k s c hc hrem_big hp0 hsrc]
          dsimp only
          rw [if_pos rfl]
          rw [hpipe, hsrc] at hcat
          simp only [List.append_nil] at hcat
          rw [hpipe, hsrc] at hlen
          simp only [List.length_nil, Nat.add_zero] at hlen
          exact ⟨hcat, by rw [hwr, hlen], herr, hto⟩
        · obtain ⟨c2, hc2⟩ := hw s.wIdx
          have hsrcne : s.src ≠ [] := by rw [hsrc]; simp
          have h0 : 0 < s.src.length := List.length_pos.mpr hsrcne
          set n := min (c + 1) (min 65536 s.src.length) with hn
          set m := min (c2 + 1) n with hm
          have hnpos : 0 < n := by rw [hn]; omega
          have hnle : n ≤ s.src.length := by rw [hn]; omega
          have hmpos : 0 < m := by rw [hm]; omega
          have hmle : m ≤ n := by rw [hm]; omega
          rw [iter_c1_readwrite k s c c2 n m hc hc2 hrem_big hp0 hpipe hsrcne hn hm]
          dsimp only
          rw [if_neg Bool.false_ne_true]
          have hlt : (s.src.take n).length = n := by
            rw [List.length_take]
            omega
          have hltm : ((s.src.take n).take m).length = m := by
            rw [List.length_take, hlt]
            omega
          have hld : ((s.src.take n).drop m).length = n - m := by
            rw [List.length_drop, hlt]
          apply ih
          · refine ⟨?_, ?_, ?_, ?_, herr, hto⟩
            · show s.dst ++ (s.src.take n).take m ++ ((s.src.take n).drop m) ++ s.src.drop n = orig
              rw [hpipe] at hcat
              simp only [List.append_nil] at hcat
              calc s.dst ++ (s.src.take n).take m ++ ((s.src.take n).drop m) ++ s.src.drop n
                  = s.dst ++ (((s.src.take n).take m ++ (s.src.take n).drop m) ++ s.src.drop n) := by
                    simp [List.append_assoc]
                _ = s.dst ++ (s.src.take n ++ s.src.drop n) := by
                    rw [List.take_append_drop]
                _ = s.dst ++ s.src := by rw [List.take_append_drop]
                _ = orig := hcat
            · show s.written + (m : Int) = _
              rw [hwr]
              simp only [List.length_append, hltm]
              push_cast
              ring
            · show (n : Int) - (m : Int) = _
              simp only [hld]
              push_cast [Nat.cast_sub hmle]
              ring
            · show s.remain - (n : Int) = _
              rw [hrem, hpipe]
              simp only [List.length_append, List.length_nil, hltm, hld]
              push_cast [Nat.cast_sub hmle]
              ring
          · show 2 * (s.src.drop n).length + ((s.src.take n).drop m).length < fuel
            rw [List.length_drop, hld]
            rw [hpipe] at hfl
            simp only [List.length_nil] at hfl
            omega
      · have hp0 : 0 < s.pipeLen := by
          rw [hpl, hpipe]
          exact_mod_cast Nat.succ_pos p.length
        obtain ⟨c2, hc2⟩ := hw s.wIdx
        set m := min (c2 + 1) s.pipeLen.toNat with hm
        have hmpos : 0 < m := by rw [hm]; omega
        have htn : s.pipeLen.toNat = s.pipe.length := by rw [hpl]; exact Int.toNat_natCast _
        have hmle : m ≤ s.pipe.length := by rw [hm, htn]; omega
        rw [iter_c1_drain k s c2 m hc2 hrem_big hp0 hm]
        dsimp only
        rw [if_neg Bool.false_ne_true]
        have hltm : (s.pipe.take m).length = m := by
          rw [List.length_take]
          omega
        have hld : (s.pipe.drop m).length = s.pipe.length - m := List.length_drop _ _
        apply ih
        · refine ⟨?_, ?_, ?_, ?_, herr, hto⟩
          · show s.dst ++ s.pipe.take m ++ s.pipe.drop m ++ s.src = orig
            calc s.dst ++ s.pipe.take m ++ s.pipe.drop m ++ s.src
                = s.dst ++ (s.pipe.take m ++ s.pipe.drop m) ++ s.src := by
                  simp [List.append_assoc]
              _ = s.dst ++ s.pipe ++ s.src := by rw [List.take_append_drop]
              _ = orig := hcat
          · show s.written + (m : Int) = _
            rw [hwr]
            simp only [List.length_append, hltm]
            push_cast
            ring
          · show s.pipeLen - (m : Int) = _
            rw [hpl]
            simp only [hld]
            push_cast [Nat.cast_sub hmle]
            ring
          · show s.remain = _
            rw [hrem]
            simp only [List.length_append, hltm, hld]
            push_cast [Nat.cast_sub hmle]
            ring
        · show 2 * s.src.length + (s.pipe.drop m).length < fuel
          rw [hld]
          have hplen : 0 < s.pipe.length := by rw [hpipe]; exact Nat.succ_pos _
          omega

/-- Claim C1: with an unbounded budget (the reader is not a
`LimitedReader`), a supported source of `N` bytes over a clean kernel (every
splice succeeds, each call moving at least one byte when data is present, and
locks/pipe succeed), `sendFile` delivers exactly the `N` source bytes to the
destination, byte-identical and in order, reports `bytesWritten = N`, no
error, and terminates; in particular no bytes read into the intermediate
pipe are left undelivered when the loop exits on the zero-byte read, because
under an unbounded budget `toRead = maxSendfileSize`, so the fill sub-step
only ever runs when the pipe is empty. -/
theorem C1_full_budget (k : KernelOracle) (d : List Nat) (fuel : Nat) (rr : RawReader)
    (ep : Spliceable) (hres : spliceableReader k rr = some ep) (hlk : ep.lockErr = none)
    (h1 : k.dstLockErr = none) (h2 : k.pipeErr = none)
    (hr : allOk k.rEv) (hw : allOk k.wEv)
    (hlen : (d.length : Int) < 2 ^ 61) (hfuel : 2 * d.length < fuel) :
    (sendFile k d fuel (Reader.plain rr)).dst = d ∧
    (sendFile k d fuel (Reader.plain rr)).written = (d.length : Int) ∧
    (sendFile k d fuel (Reader.plain rr)).err = none ∧
    (sendFile k d fuel (Reader.plain rr)).timedOut = false := by
  have hini : c1Inv d (initState (Reader.plain rr).budget d) := by
    refine ⟨by simp [initState], by simp [initState], by simp [initState], ?_, rfl, rfl⟩
    simp [initState, Reader.budget]
  have h := c1_loop k d hlen hr hw fuel (initState (Reader.plain rr).budget d) hini
    (by simpa [initState] using hfuel)
  unfold sendFile
  rw [if_neg (by simp [Reader.isLimited])]
  simp only [Reader.raw, hres, h1, hlk, h2]
  unfold finishLoop
  exact ⟨h.1, h.2.1, h.2.2.1, h.2.2.2⟩

theorem C1_witness :
    (sendFile okOracle [7, 3, 9] 7 (Reader.plain (RawReader.file 4))).dst = [7, 3, 9] ∧
    (sendFile okOracle [7, 3, 9] 7 (Reader.plain (RawReader.file 4))).written = 3 ∧
    (sendFile okOracle [7, 3, 9] 7 (Reader.plain (RawReader.file 4))).err = none ∧
    (sendFile okOracle [7, 3, 9] 7 (Reader.plain (RawReader.file 4))).timedOut = false := by
  have h := C1_full_budget okOracle [7, 3, 9] 7 (RawReader.file 4) ⟨4, none⟩ rfl rfl rfl rfl
    (fun _ => ⟨99999, rfl⟩) (fun _ => ⟨99999, rfl⟩) (by norm_num) (by norm_num)
  simpa using h

/-- Claim C3, failing run: a bounded request with budget `B = 10` over a
source of `N = 8` bytes, where the destination accepts only 3 bytes on the
first drain (a partial write, as a real socket does when its buffer is
nearly full) and everything afterwards.  The claim (and spec §8) demand that
exactly `N = 8` bytes be delivered with write-back budget `B − N = 2`; the
code instead hits the zero-byte read (source exhausted) on the next
iteration and `break`s out of the loop with 5 bytes still buffered in the
pipe, returning `written = 3`, no error, `lr.N = 2`: the 5 buffered bytes
are silently discarded even though the write-back budget claims they were
consumed.  (With `B ≤ N` the fill sub-step never sees the zero-byte read, so
that half of the claim does hold; the `B > N` half is a genuine bug — the
loop forgets to drain the pipe before breaking on end-of-stream.) -/
theorem C3_bounded_budget_eval :
    sendFile kPartial [1, 2, 3, 4, 5, 6, 7, 8] 20 (Reader.limited 10 (RawReader.file 0)) =
      { written := 3, err := none, handled := true, dst := [1, 2, 3], lrN := some 2,
        dstLocked := true, srcLocked := true, pipeCreated := true, timedOut := false } := by
  decide

end Sendfile

/-!
The bidirectional proxy of `sendfile_linux_test.go`:

```
func proxy(l, r *net.TCPConn) {
    defer l.Close(); defer r.Close()
    var wg sync.WaitGroup; wg.Add(2)
    go func() { defer wg.Done(); defer l.CloseWrite(); defer r.CloseRead(); io.Copy(l, r) }()
    go func() { defer wg.Done(); defer l.CloseRead(); defer r.CloseWrite(); io.Copy(r, l) }()
    wg.Wait()
}
```

Its concurrency structure is embedded as a finite happens-before graph: each
goroutine contributes its events in program order (deferred calls run in
last-in-first-out order after the copy returns), and the `sync.WaitGroup`
contributes the edges `wg.Done → wg.Wait` for both directions.  `hb a b`
means every execution must order `a` before `b`; events of different
goroutines with no `hb` path either way may interleave freely.
-/

namespace Proxy

/-- The two proxied connections: `cl` is `l`, `cr` is `r`. -/
inductive Conn2 where
  | cl : Conn2
  | cr : Conn2
deriving DecidableEq, Repr

/-- The two halves of a full-duplex connection. -/
inductive Half2 where
  | rd : Half2
  | wr : Half2
deriving DecidableEq, Repr

/-- The events of one `proxy(l, r)` run.  Direction A is the goroutine
running `io.Copy(l, r)` (drains `r` into `l`); direction B runs
`io.Copy(r, l)`.  `copyRL`/`copyLR` are the copies returning on source
end-of-stream; the `close…` events are the deferred half-closes; `doneA`,
`doneB` are the two `wg.Done()` calls; `wgWait` is `wg.Wait()` returning in
the parent; `closeFullR`/`closeFullL` are the parent's deferred
`r.Close()`/`l.Close()`. -/
inductive PEv where
  | copyRL : PEv
  | closeReadR : PEv
  | closeWriteL : PEv
  | doneA : PEv
  | copyLR : PEv
  | closeWriteR : PEv
  | closeReadL : PEv
  | doneB : PEv
  | wgWait : PEv
  | closeFullR : PEv
  | closeFullL : PEv
deriving DecidableEq, Repr

/-- Direction A's events in program order: `io.Copy(l, r)` returns on EOF,
then the deferred calls run in reverse registration order
(`r.CloseRead()`, `l.CloseWrite()`, `wg.Done()`). -/
def threadA : List PEv := [PEv.copyRL, PEv.closeReadR, PEv.closeWriteL, PEv.doneA]

/-- Direction B's events in program order: `io.Copy(r, l)`, then
`r.CloseWrite()`, `l.CloseRead()`, `wg.Done()`. -/
def threadB : List PEv := [PEv.copyLR, PEv.closeWriteR, PEv.closeReadL, PEv.doneB]

/-- The parent's events after spawning: `wg.Wait()`, then the deferred
`r.Close()`, then `l.Close()`. -/
def threadMain : List PEv := [PEv.wgWait, PEv.closeFullR, PEv.closeFullL]

/-- Consecutive program-order pairs of one goroutine. -/
def progEdges (l : List PEv) : List (PEv × PEv) := l.zip l.tail

/-- All happens-before edges: program order within each of the three
goroutines, plus the `sync.WaitGroup` edges `wg.Done() → wg.Wait()`. -/
def proxyEdges : List (PEv × PEv) :=
  progEdges threadA ++ progEdges threadB ++ progEdges threadMain ++
    [(PEv.doneA, PEv.wgWait), (PEv.doneB, PEv.wgWait)]

/-- Bounded reachability along `proxyEdges` (paths of at most `fuel` edges
plus reflexivity). -/
def reachFrom : Nat → PEv → PEv → Bool
  | 0, a, b => a == b
  | fuel + 1, a, b =>
      a == b || proxyEdges.any fun p => decide (p.1 = a) && reachFrom fuel p.2 b

/-- `hb a b`: event `a` happens before event `b` in every execution of
`proxy` (a strict path in the happens-before graph; 11 events bound every
path length). -/
def hb (a b : PEv) : Prop := reachFrom 11 a b = true ∧ a ≠ b

instance (a b : PEv) : Decidable (hb a b) := by
  unfold hb
  infer_instance

/-- The connection halves an event shuts down. -/
def closes : PEv → List (Conn2 × Half2)
  | PEv.closeReadR => [(Conn2.cr, Half2.rd)]
  | PEv.closeWriteL => [(Conn2.cl, Half2.wr)]
  | PEv.closeWriteR => [(Conn2.cr, Half2.wr)]
  | PEv.closeReadL => [(Conn2.cl, Half2.rd)]
  | PEv.closeFullR => [(Conn2.cr, Half2.rd), (Conn2.cr, Half2.wr)]
  | PEv.closeFullL => [(Conn2.cl, Half2.rd), (Conn2.cl, Half2.wr)]
  | _ => []

/-- The connection halves a copy reads from and writes to:
`io.Copy(l, r)` reads `r`'s read half and writes `l`'s write half. -/
def uses : PEv → List (Conn2 × Half2)
  | PEv.copyRL => [(Conn2.cr, Half2.rd), (Conn2.cl, Half2.wr)]
  | PEv.copyLR => [(Conn2.cl, Half2.rd), (Conn2.cr, Half2.wr)]
  | _ => []

/-- Claim C9: in the bidirectional proxy, each direction half-closes upon
its source's end-of-stream — after its copy returns it shuts down reading on
its source and writing on its destination; the halves it closes are disjoint
from the halves the opposite direction uses, and no event of one direction
is ordered before any event of the other (so a one-sided EOF cannot
terminate the still-active direction); the parent's full `Close()` of both
connections happens only after both directions' `wg.Done()`. -/
theorem C9_proxy_halfclose :
    (hb PEv.copyRL PEv.closeReadR ∧ hb PEv.copyRL PEv.closeWriteL ∧
     hb PEv.copyLR PEv.closeWriteR ∧ hb PEv.copyLR PEv.closeReadL) ∧
    (hb PEv.doneA PEv.closeFullR ∧ hb PEv.doneA PEv.closeFullL ∧
     hb PEv.doneB PEv.closeFullR ∧ hb PEv.doneB PEv.closeFullL) ∧
    (∀ e ∈ threadA, ∀ f ∈ threadB, ¬ hb e f ∧ ¬ hb f e) ∧
    (∀ e ∈ threadA, ∀ h ∈ closes e, h ∉ uses PEv.copyLR) ∧
    (∀ e ∈ threadB, ∀ h ∈ closes e, h ∉ uses PEv.copyRL) := by
  decide

end Proxy
